import Mathlib

/-!
Shallow embedding of the authentication/session subsystem of the
employee-service repository (internal/api/server.go and the AuthController
in internal/controllers).  Machine randomness is modelled as an explicit
entropy stream `ent : Nat → Nat` with a position counter; the HMAC-SHA256
signature of the jwt library is modelled symbolically: a signed token
records its payload and the secret it was signed with, and verification
compares that secret with the expected one.  Redis is modelled as a
key-value state with exact-key GET/SET/DEL (Redis DEL takes literal keys
and performs no glob expansion) plus injectable per-key errors.
-/

namespace EmployeeService

/-- Claims struct from server.go: jwt.RegisteredClaims (of which the code
sets ExpiresAt and IssuedAt) plus ID, Email, Role, TokenID.  There is no
token-type discriminator field. -/
structure Claims where
  id : Nat
  email : String
  role : String
  tokenID : String
  issuedAt : Int
  expiresAt : Int
  deriving DecidableEq

/-- A token string on the wire: either a well-formed JWT (payload plus the
secret the MAC was computed with, the symbolic model of an HS256
signature), or an arbitrary non-JWT string. -/
inductive TokenWire where
  | signed (claims : Claims) (secretUsed : String)
  | raw (s : String)
  deriving DecidableEq

/-- Redis keys built by the code.  The code concatenates the string
"access_token:" or "refresh_token:" with a token string; since the two
literal namespaces differ and string concatenation with a fixed namespace
is injective in the token string, the keys form this sum type. -/
inductive CacheKey where
  | accessTok (t : TokenWire)
  | refreshTok (t : TokenWire)
  deriving DecidableEq

/-- Outcome of a go-redis Get: a value, the sentinel error redis.Nil for a
missing key, or any other (infrastructure) error. -/
inductive RedisGetResult where
  | found (v : String)
  | redisNil
  | errOther (e : String)
  deriving DecidableEq

/-- State of the Redis session cache: live entries (key, value, ttl) where
a later Set shadows earlier entries of the same key, plus per-key error
injection for Get/Set/Del to model infrastructure failures. -/
structure CacheState where
  entries : List (CacheKey × String × Int)
  getErr : CacheKey → Option String
  setErr : CacheKey → Option String
  delErr : CacheKey → Option String

/-- First entry for a key, mirroring the single value Redis stores. -/
def lookupEntry : List (CacheKey × String × Int) → CacheKey → Option (String × Int)
  | [], _ => none
  | (k, v, ttl) :: rest, key => if k = key then some (v, ttl) else lookupEntry rest key

/-- Redis GET on the model state. -/
def CacheState.get (st : CacheState) (k : CacheKey) : RedisGetResult :=
  match st.getErr k with
  | some e => .errOther e
  | none =>
    match lookupEntry st.entries k with
    | some (v, _) => .found v
    | none => .redisNil

/-- Redis SET with TTL on the model state; on an injected error the state
is unchanged and the error is returned, as in go-redis. -/
def CacheState.set (st : CacheState) (k : CacheKey) (v : String) (ttl : Int) :
    Except String CacheState :=
  match st.setErr k with
  | some e => .error e
  | none => .ok { st with entries := (k, v, ttl) :: st.entries }

/-- A cache state with the given entries and no injected errors. -/
def cleanCache (es : List (CacheKey × String × Int)) : CacheState :=
  ⟨es, fun _ => none, fun _ => none, fun _ => none⟩

/-- TokenSize constant from server.go. -/
def TokenSize : Nat := 16

/-- Lowercase hex digit table of encoding/hex. -/
def hexDigit : Nat → Char
  | 0 => '0' | 1 => '1' | 2 => '2' | 3 => '3' | 4 => '4'
  | 5 => '5' | 6 => '6' | 7 => '7' | 8 => '8' | 9 => '9'
  | 10 => 'a' | 11 => 'b' | 12 => 'c' | 13 => 'd' | 14 => 'e'
  | _ => 'f'

/-- Inverse of hexDigit on digits below 16. -/
def hexDigitVal : Char → Nat
  | '0' => 0 | '1' => 1 | '2' => 2 | '3' => 3 | '4' => 4
  | '5' => 5 | '6' => 6 | '7' => 7 | '8' => 8 | '9' => 9
  | 'a' => 10 | 'b' => 11 | 'c' => 12 | 'd' => 13 | 'e' => 14
  | _ => 15

/-- encoding/hex EncodeToString on a byte list: two hex digits per byte,
high nibble first. -/
def hexEncodeList : List Nat → List Char
  | [] => []
  | b :: bs => hexDigit (b / 16) :: hexDigit (b % 16) :: hexEncodeList bs

/-- hex.EncodeToString as a String. -/
def hexEncode (bs : List Nat) : String := ⟨hexEncodeList bs⟩

/-- The TokenSize bytes that rand.Read draws from the entropy stream at a
given position. -/
def entBlock (ent : Nat → Nat) (pos : Nat) : List Nat :=
  (List.range TokenSize).map (fun i => ent (pos + i) % 256)

/-- generateTokenID from server.go: reads TokenSize fresh random bytes
and hex-encodes them, advancing the entropy position.  The rand.Read
failure path is an environment fault outside the model. -/
def generateTokenID (ent : Nat → Nat) (pos : Nat) : String × Nat :=
  (hexEncode (entBlock ent pos), pos + TokenSize)

/-- Token IDs produced by n consecutive generateTokenID calls. -/
def tokenIDs (ent : Nat → Nat) (pos : Nat) : Nat → List String
  | 0 => []
  | Nat.succ n =>
      (generateTokenID ent pos).1 :: tokenIDs ent (generateTokenID ent pos).2 n

/-- Configuration fields the auth subsystem reads: Server.JWTSecret,
Redis.AccessTokenTTL, Redis.RefreshTokenTTL (durations as seconds). -/
structure Config where
  jwtSecret : String
  accessTokenTTL : Int
  refreshTokenTTL : Int

/-- A stored bcrypt hash, symbolically: the hash of a password. -/
inductive StoredHash where
  | bcryptOf (pw : String)
  deriving DecidableEq

/-- bcrypt.CompareHashAndPassword: nil error on a match, the package
mismatch error otherwise. -/
def bcryptCompareHashAndPassword (hash : StoredHash) (password : String) :
    Except String Unit :=
  match hash with
  | .bcryptOf pw =>
    if pw = password then .ok ()
    else .error "crypto/bcrypt: hashedPassword is not the hash of the given password"

/-- The employee columns AuthLogin scans: id, email, password, role. -/
structure EmployeeRow where
  id : Nat
  email : String
  password : StoredHash
  role : String
  deriving DecidableEq

/-- TTL chosen inside createToken: AccessTokenTTL unless tokenType is
"refresh". -/
def tokenTTL (cfg : Config) (tokenType : String) : Int :=
  if tokenType = "refresh" then cfg.refreshTokenTTL else cfg.accessTokenTTL

/-- createToken from server.go: fresh token ID, expiry now plus the
type-selected TTL, issued-at now, signed HS256 with the server secret.
The SignedString failure path is an environment fault outside the model.
The AuthController variant in internal/controllers builds the identical
claims and signature. -/
def createToken (cfg : Config) (emp : EmployeeRow) (tokenType : String)
    (ent : Nat → Nat) (pos : Nat) (now : Int) : TokenWire × Nat :=
  let idAndPos := generateTokenID ent pos
  (TokenWire.signed
    { id := emp.id, email := emp.email, role := emp.role, tokenID := idAndPos.1,
      issuedAt := now, expiresAt := now + tokenTTL cfg tokenType }
    cfg.jwtSecret,
   idAndPos.2)

/-- jwt.ParseWithClaims followed by the token.Valid check, with every
failure collapsed to the invalid-token error as in getUserFromToken and
CheckUserToken: a non-JWT string, a signature made with a different
secret, and an expired token (jwt v5 requires now strictly before
ExpiresAt with zero leeway) all fail. -/
def parseToken (secret : String) (now : Int) (t : TokenWire) : Except String Claims :=
  match t with
  | .raw _ => .error "invalid token"
  | .signed c secretUsed =>
    if secretUsed = secret then
      if now < c.expiresAt then .ok c
      else .error "invalid token"
    else .error "invalid token"

/-- The Authorization header of a request: absent (Go returns the empty
string), a well-formed bearer header carrying a token, or a nonempty
header without the bearer marker (TrimPrefix leaves it unchanged). -/
inductive AuthHeader where
  | missing
  | bearer (t : TokenWire)
  | other (s : String)
  deriving DecidableEq

/-- getUserFromToken from server.go: header present, bearer marker
present, then Redis GET on the access-token key where only the redis.Nil
error is branched on (a value and any other error both fall through), then
jwt parse.  CheckUserToken in internal/controllers is the same function
without the missing-header branch. -/
def getUserFromToken (secret : String) (now : Int) (cache : CacheState)
    (hdr : AuthHeader) : Except String Claims :=
  match hdr with
  | .missing => .error "authorization header missing"
  | .other _ => .error "invalid bearer token"
  | .bearer t =>
    match cache.get (CacheKey.accessTok t) with
    | .redisNil => .error "token revoked"
    | _ => parseToken secret now t

/-- requireAdminOrHR from server.go; a pure role membership test. -/
def requireAdminOrHR (user : Claims) : Except String Unit :=
  if user.role ≠ "admin" ∧ user.role ≠ "hr" then .error "insufficient permissions"
  else .ok ()

/-- checkAuthUser from server.go: authenticate then role-check. -/
def checkAuthUser (secret : String) (now : Int) (cache : CacheState)
    (hdr : AuthHeader) : Except String Unit :=
  match getUserFromToken secret now cache hdr with
  | .error _ => .error "Error getting user from token"
  | .ok user =>
    match requireAdminOrHR user with
    | .error _ => .error "insufficient permissions"
    | .ok _ => .ok ()

/-- Body of an httpResponse call in the handlers. -/
inductive RespData where
  | text (s : String)
  | errKV (v : String)
  | messageKV (v : String)
  | tokens (accessToken refreshToken : TokenWire)
  deriving DecidableEq

/-- Status, response type and data written by httpResponse. -/
structure HttpResp where
  status : Nat
  respType : String
  data : RespData
  deriving DecidableEq

/-- Result of the employees-by-email SQL lookup in AuthLogin. -/
inductive DbLookup where
  | row (id : Nat) (email : String) (password : StoredHash) (role : String)
  | noRows
  | queryErr (e : String)
  deriving DecidableEq

/-- LoginRequest from internal/entity. -/
structure LoginRequest where
  email : String
  password : String
  deriving DecidableEq

/-- The HTTP AuthLogin handler from server.go, after JSON decoding of the
body (decoding is transport plumbing outside this core): empty-field
check, credential row lookup, bcrypt comparison, refresh then access
token creation, Redis SET of the access then the refresh entry (each
storing the employee id with its own TTL), and the success response with
both tokens. -/
def AuthLogin (cfg : Config) (db : String → DbLookup) (st : CacheState)
    (ent : Nat → Nat) (pos : Nat) (now : Int) (req : LoginRequest) :
    HttpResp × CacheState :=
  if req.email = "" ∨ req.password = "" then
    (⟨400, "error", .errKV "Email and password required"⟩, st)
  else
    match db req.email with
    | .noRows => (⟨401, "error", .text "Invalid credentials"⟩, st)
    | .queryErr _ => (⟨500, "error", .text "Failed to authenticate"⟩, st)
    | .row id em pw role =>
      match bcryptCompareHashAndPassword pw req.password with
      | .error _ => (⟨401, "error", .text "Invalid credentials"⟩, st)
      | .ok _ =>
        let refreshRes := createToken cfg ⟨id, em, pw, role⟩ "refresh" ent pos now
        let accessRes := createToken cfg ⟨id, em, pw, role⟩ "access" ent refreshRes.2 now
        match st.set (CacheKey.accessTok accessRes.1) (toString id) cfg.accessTokenTTL with
        | .error _ => (⟨500, "error", .text "Failed to save access token"⟩, st)
        | .ok st1 =>
          match st1.set (CacheKey.refreshTok refreshRes.1) (toString id) cfg.refreshTokenTTL with
          | .error _ => (⟨500, "error", .text "Failed to save refresh token"⟩, st1)
          | .ok st2 => (⟨200, "success", .tokens accessRes.1 refreshRes.1⟩, st2)

/-- AuthController.AuthLogin from internal/controllers: same steps as the
HTTP handler but value-returning, with the not-found error naming the
email condition, the bcrypt error returned as-is, access token created
before refresh, and the cache value the string "valid". -/
def authControllerAuthLogin (cfg : Config) (db : String → DbLookup)
    (st : CacheState) (ent : Nat → Nat) (pos : Nat) (now : Int)
    (req : LoginRequest) : Except String (TokenWire × TokenWire) × CacheState :=
  match db req.email with
  | .noRows => (.error "user with this email not found", st)
  | .queryErr e => (.error e, st)
  | .row id em pw role =>
    match bcryptCompareHashAndPassword pw req.password with
    | .error e => (.error e, st)
    | .ok _ =>
      let accessRes := createToken cfg ⟨id, em, pw, role⟩ "access" ent pos now
      let refreshRes := createToken cfg ⟨id, em, pw, role⟩ "refresh" ent accessRes.2 now
      match st.set (CacheKey.accessTok accessRes.1) "valid" cfg.accessTokenTTL with
      | .error e => (.error e, st)
      | .ok st1 =>
        match st1.set (CacheKey.refreshTok refreshRes.1) "valid" cfg.refreshTokenTTL with
        | .error e => (.error e, st1)
        | .ok st2 => (.ok (accessRes.1, refreshRes.1), st2)

theorem hexDigitVal_hexDigit : ∀ n, n < 16 → hexDigitVal (hexDigit n) = n := by decide

theorem hexEncodeList_inj : ∀ bs cs : List Nat, (∀ b ∈ bs, b < 256) →
    (∀ c ∈ cs, c < 256) → hexEncodeList bs = hexEncodeList cs → bs = cs := by
  intro bs
  induction bs with
  | nil =>
    intro cs _ _ h
    cases cs with
    | nil => rfl
    | cons c cs => simp [hexEncodeList] at h
  | cons b bs ih =>
    intro cs hb hc h
    cases cs with
    | nil => simp [hexEncodeList] at h
    | cons c cs =>
      simp only [hexEncodeList, List.cons.injEq] at h
      obtain ⟨h1, h2, h3⟩ := h
      have hb1 : b < 256 := hb b (by simp)
      have hc1 : c < 256 := hc c (by simp)
      have e1 : b / 16 = c / 16 := by
        have h4 := congrArg hexDigitVal h1
        rwa [hexDigitVal_hexDigit _ (by omega), hexDigitVal_hexDigit _ (by omega)] at h4
      have e2 : b % 16 = c % 16 := by
        have h4 := congrArg hexDigitVal h2
        rwa [hexDigitVal_hexDigit _ (by omega), hexDigitVal_hexDigit _ (by omega)] at h4
      have : b = c := by omega
      subst this
      have : bs = cs := ih cs (fun x hx => hb x (by simp [hx])) (fun x hx => hc x (by simp [hx])) h3
      rw [this]

theorem hexEncode_inj (bs cs : List Nat) (hb : ∀ b ∈ bs, b < 256)
    (hc : ∀ c ∈ cs, c < 256) (h : hexEncode bs = hexEncode cs) : bs = cs :=
  hexEncodeList_inj bs cs hb hc (congrArg String.data h)

theorem entBlock_lt (ent : Nat → Nat) (pos : Nat) : ∀ b ∈ entBlock ent pos, b < 256 := by
  intro b hb
  simp only [entBlock, List.mem_map, List.mem_range] at hb
  obtain ⟨i, _, rfl⟩ := hb
  exact Nat.mod_lt _ (by norm_num)

/-- Sample claims: an admin principal, token valid from 0 to 10. -/
def sampleClaims : Claims := ⟨1, "a@b.com", "admin", "deadbeef", 0, 10⟩

/-- Sample token: the sample claims signed with the secret "s". -/
def sampleTok : TokenWire := .signed sampleClaims "s"

/-- Sample configuration: secret "s", access TTL 900, refresh TTL 604800. -/
def cfg0 : Config := ⟨"s", 900, 604800⟩

/-- The empty cache with no injected errors. -/
def emptyCache : CacheState := cleanCache []

/-- C1: a token whose signature verifies and whose expiry has not passed,
but that has no live cache entry under its access-token key, is rejected
by getUserFromToken with the revocation error; cache absence overrides
signature validity. -/
theorem cache_absence_overrides_signature_c1
    (secret : String) (now : Int) (cache : CacheState) (t : TokenWire) (c : Claims)
    (hsig : parseToken secret now t = Except.ok c)
    (hmiss : cache.get (CacheKey.accessTok t) = RedisGetResult.redisNil) :
    getUserFromToken secret now cache (AuthHeader.bearer t) = Except.error "token revoked" := by
  simp [getUserFromToken, hmiss]

theorem cache_absence_overrides_signature_c1_witness :
    parseToken "s" 5 sampleTok = Except.ok sampleClaims ∧
    CacheState.get emptyCache (CacheKey.accessTok sampleTok) = RedisGetResult.redisNil ∧
    getUserFromToken "s" 5 emptyCache (AuthHeader.bearer sampleTok) =
      Except.error "token revoked" :=
  ⟨rfl, rfl,
   cache_absence_overrides_signature_c1 "s" 5 emptyCache sampleTok sampleClaims rfl rfl⟩

/-- A cache state whose Get on the sample access-token key fails with a
connection error rather than redis.Nil. -/
def infraFailCache : CacheState :=
  ⟨[], fun k => if k = CacheKey.accessTok sampleTok then some "redis: connection refused" else none,
   fun _ => none, fun _ => none⟩

/-- C2: the code checks only errors.Is(err, redis.Nil) after the Redis
Get, so a cache error distinct from not-found is silently ignored and a
signature-valid unexpired token authenticates successfully, instead of
the infrastructure failure the claim requires. -/
theorem cache_error_ignored_c2 :
    CacheState.get infraFailCache (CacheKey.accessTok sampleTok) =
      RedisGetResult.errOther "redis: connection refused" ∧
    getUserFromToken "s" 5 infraFailCache (AuthHeader.bearer sampleTok) =
      Except.ok sampleClaims :=
  ⟨rfl, rfl⟩

/-- Credential table with exactly one account, used to compare the two
failing login shapes. -/
def c3db : String → DbLookup := fun e =>
  if e = "real@x.com" then DbLookup.row 1 "real@x.com" (StoredHash.bcryptOf "secret123") "admin"
  else DbLookup.noRows

/-- C3 counterexample: AuthController.AuthLogin returns the error
naming the missing email for an unknown address and the bcrypt mismatch
error for a wrong password, two different messages, so the claim that
every login error is the same InvalidCredentials message fails on that
code path. -/
theorem login_error_distinguishes_email_c3_counter :
    (authControllerAuthLogin cfg0 c3db emptyCache (fun _ => 0) 0 0
        ⟨"doesnotexist@x.com", "anything"⟩).1 =
      Except.error "user with this email not found" ∧
    (authControllerAuthLogin cfg0 c3db emptyCache (fun _ => 0) 0 0
        ⟨"real@x.com", "wrongpassword"⟩).1 =
      Except.error "crypto/bcrypt: hashedPassword is not the hash of the given password" ∧
    ("user with this email not found" : String) ≠
      "crypto/bcrypt: hashedPassword is not the hash of the given password" :=
  ⟨rfl, rfl, by decide⟩

/-- C3 amended: the HTTP AuthLogin handler returns the identical
response, status 401 with the body Invalid credentials, both for an email
that matches no credential record and for an existing email with a wrong
password, never revealing whether the email exists; the AuthController
variant does distinguish the two cases. -/
theorem login_uniform_invalid_credentials_c3
    (cfg : Config) (db : String → DbLookup) (st : CacheState) (ent : Nat → Nat)
    (pos : Nat) (now : Int) (e1 pw1 e2 pw2 : String)
    (h1e : e1 ≠ "") (h1p : pw1 ≠ "") (h2e : e2 ≠ "") (h2p : pw2 ≠ "")
    (hnf : db e1 = DbLookup.noRows)
    (id : Nat) (em : String) (stored : StoredHash) (role : String)
    (hrow : db e2 = DbLookup.row id em stored role)
    (hbad : bcryptCompareHashAndPassword stored pw2 =
      Except.error "crypto/bcrypt: hashedPassword is not the hash of the given password") :
    (AuthLogin cfg db st ent pos now ⟨e1, pw1⟩).1 =
      ⟨401, "error", RespData.text "Invalid credentials"⟩ ∧
    (AuthLogin cfg db st ent pos now ⟨e2, pw2⟩).1 =
      ⟨401, "error", RespData.text "Invalid credentials"⟩ := by
  constructor
  · simp [AuthLogin, h1e, h1p, hnf]
  · simp [AuthLogin, h2e, h2p, hrow, hbad]

theorem login_uniform_invalid_credentials_c3_witness :
    (AuthLogin cfg0 c3db emptyCache (fun _ => 0) 0 0 ⟨"doesnotexist@x.com", "anything"⟩).1 =
      ⟨401, "error", RespData.text "Invalid credentials"⟩ ∧
    (AuthLogin cfg0 c3db emptyCache (fun _ => 0) 0 0 ⟨"real@x.com", "wrongpassword"⟩).1 =
      ⟨401, "error", RespData.text "Invalid credentials"⟩ :=
  login_uniform_invalid_credentials_c3 cfg0 c3db emptyCache (fun _ => 0) 0 0
    "doesnotexist@x.com" "anything" "real@x.com" "wrongpassword"
    (by decide) (by decide) (by decide) (by decide) rfl
    1 "real@x.com" (StoredHash.bcryptOf "secret123") "admin" rfl rfl

/-- Sample credential row matching the c3db account. -/
def emp0 : EmployeeRow := ⟨1, "a@b.com", StoredHash.bcryptOf "secret123", "admin"⟩

/-- C5: parsing a token produced by createToken with the same server-wide
secret, at a time strictly before issued-at plus the TTL of its type,
returns claims equal to the inputs: same id, email, role and token ID,
with expires-at equal to issued-at plus the TTL. -/
theorem token_roundtrip_c5
    (cfg : Config) (emp : EmployeeRow) (tokenType : String)
    (ent : Nat → Nat) (pos : Nat) (now now2 : Int)
    (hfresh : now2 < now + tokenTTL cfg tokenType) :
    parseToken cfg.jwtSecret now2 (createToken cfg emp tokenType ent pos now).1 =
      Except.ok { id := emp.id, email := emp.email, role := emp.role,
                  tokenID := (generateTokenID ent pos).1,
                  issuedAt := now, expiresAt := now + tokenTTL cfg tokenType } := by
  simp [createToken, parseToken, hfresh]

theorem token_roundtrip_c5_witness :
    (5 : Int) < 0 + tokenTTL cfg0 "access" ∧
    parseToken cfg0.jwtSecret 5 (createToken cfg0 emp0 "access" (fun i => i) 0 0).1 =
      Except.ok { id := 1, email := "a@b.com", role := "admin",
                  tokenID := (generateTokenID (fun i => i) 0).1,
                  issuedAt := 0, expiresAt := 0 + tokenTTL cfg0 "access" } :=
  ⟨by decide, token_roundtrip_c5 cfg0 emp0 "access" (fun i => i) 0 0 5 (by decide)⟩

/-- C6: a token issued with the TTL of its type, parsed at any time
issued-at plus TTL plus a positive epsilon, fails as an invalid token,
and under any cache state whatsoever getUserFromToken never accepts
it. -/
theorem token_expiry_c6
    (cfg : Config) (emp : EmployeeRow) (tokenType : String) (ent : Nat → Nat)
    (pos : Nat) (now : Int) (eps : Int) (heps : 0 < eps) (cache : CacheState) :
    parseToken cfg.jwtSecret (now + tokenTTL cfg tokenType + eps)
        (createToken cfg emp tokenType ent pos now).1 = Except.error "invalid token" ∧
    ∀ c, getUserFromToken cfg.jwtSecret (now + tokenTTL cfg tokenType + eps) cache
        (AuthHeader.bearer (createToken cfg emp tokenType ent pos now).1) ≠
      Except.ok c := by
  have hnot : ¬ (now + tokenTTL cfg tokenType + eps < now + tokenTTL cfg tokenType) := by
    omega
  have hparse : parseToken cfg.jwtSecret (now + tokenTTL cfg tokenType + eps)
      (createToken cfg emp tokenType ent pos now).1 = Except.error "invalid token" := by
    simp [createToken, parseToken, hnot]
  refine ⟨hparse, ?_⟩
  intro c
  unfold getUserFromToken
  cases hget : cache.get (CacheKey.accessTok (createToken cfg emp tokenType ent pos now).1) with
  | redisNil => simp [hget]
  | found v => simp [hget, hparse]
  | errOther e => simp [hget, hparse]

theorem token_expiry_c6_witness :
    (0 : Int) < 1 ∧
    parseToken cfg0.jwtSecret (0 + tokenTTL cfg0 "access" + 1)
        (createToken cfg0 emp0 "access" (fun i => i) 0 0).1 =
      Except.error "invalid token" :=
  ⟨by decide, (token_expiry_c6 cfg0 emp0 "access" (fun i => i) 0 0 1 (by decide) emptyCache).1⟩

/-- C7: once both tokens have been issued, a cache-write failure while
registering either the access token or the refresh token fails the whole
login with a server error, and the response carries no token at all. -/
theorem login_cache_write_failure_c7
    (cfg : Config) (db : String → DbLookup) (st : CacheState) (ent : Nat → Nat)
    (pos : Nat) (now : Int) (req : LoginRequest)
    (hne : ¬(req.email = "" ∨ req.password = ""))
    (id : Nat) (em : String) (stored : StoredHash) (role : String)
    (hrow : db req.email = DbLookup.row id em stored role)
    (hpw : bcryptCompareHashAndPassword stored req.password = Except.ok ())
    (hfail :
      st.setErr (CacheKey.accessTok
        (createToken cfg ⟨id, em, stored, role⟩ "access" ent
          (createToken cfg ⟨id, em, stored, role⟩ "refresh" ent pos now).2 now).1) ≠ none ∨
      st.setErr (CacheKey.refreshTok
        (createToken cfg ⟨id, em, stored, role⟩ "refresh" ent pos now).1) ≠ none) :
    (AuthLogin cfg db st ent pos now req).1.status = 500 ∧
    ∀ a r, (AuthLogin cfg db st ent pos now req).1.data ≠ RespData.tokens a r := by
  cases hsa : st.setErr (CacheKey.accessTok
      (createToken cfg ⟨id, em, stored, role⟩ "access" ent
        (createToken cfg ⟨id, em, stored, role⟩ "refresh" ent pos now).2 now).1) with
  | some e =>
    constructor
    · simp [AuthLogin, CacheState.set, hne, hrow, hpw, hsa]
    · intro a r
      simp [AuthLogin, CacheState.set, hne, hrow, hpw, hsa]
  | none =>
    cases hsr : st.setErr (CacheKey.refreshTok
        (createToken cfg ⟨id, em, stored, role⟩ "refresh" ent pos now).1) with
    | some e =>
      constructor
      · simp [AuthLogin, CacheState.set, hne, hrow, hpw, hsa, hsr]
      · intro a r
        simp [AuthLogin, CacheState.set, hne, hrow, hpw, hsa, hsr]
    | none =>
      exfalso
      rcases hfail with h | h
      · exact h hsa
      · exact h hsr

/-- A cache whose every Set fails with a connection error. -/
def allSetFailCache : CacheState :=
  ⟨[], fun _ => none, fun _ => some "redis: connection refused", fun _ => none⟩

theorem login_cache_write_failure_c7_witness :
    (AuthLogin cfg0 c3db allSetFailCache (fun _ => 0) 0 0
      ⟨"real@x.com", "secret123"⟩).1.status = 500 :=
  (login_cache_write_failure_c7 cfg0 c3db allSetFailCache (fun _ => 0) 0 0
    ⟨"real@x.com", "secret123"⟩ (by decide) 1 "real@x.com"
    (StoredHash.bcryptOf "secret123") "admin" rfl rfl (Or.inl (by decide))).1

/-- C8: requireAdminOrHR succeeds exactly when the role of the principal
is admin or hr, and for the employee role it fails with the insufficient
permissions error; the model function is pure. -/
theorem role_gate_c8 (user : Claims) :
    (requireAdminOrHR user = Except.ok () ↔ user.role = "admin" ∨ user.role = "hr") ∧
    (user.role = "employee" → requireAdminOrHR user = Except.error "insufficient permissions") := by
  constructor
  · constructor
    · intro h
      by_contra hc
      push_neg at hc
      simp [requireAdminOrHR, hc.1, hc.2] at h
    · intro h
      rcases h with h | h <;> simp [requireAdminOrHR, h]
  · intro h
    simp [requireAdminOrHR, h]

/-- Claims with the employee role. -/
def employeeClaims : Claims := ⟨3, "e@b.com", "employee", "beef", 0, 10⟩

theorem role_gate_c8_witness :
    requireAdminOrHR employeeClaims = Except.error "insufficient permissions" :=
  (role_gate_c8 employeeClaims).2 rfl

theorem tokenIDs_eq_map (ent : Nat → Nat) : ∀ (n pos : Nat),
    tokenIDs ent pos n =
      (List.range n).map (fun i => hexEncode (entBlock ent (pos + TokenSize * i))) := by
  intro n
  induction n with
  | zero => intro pos; rfl
  | succ n ih =>
    intro pos
    have h1 : tokenIDs ent pos (n + 1) =
        hexEncode (entBlock ent pos) :: tokenIDs ent (pos + TokenSize) n := rfl
    rw [h1, ih (pos + TokenSize), List.range_succ_eq_map, List.map_cons, List.map_map]
    refine congrArg₂ List.cons rfl ?_
    apply List.map_congr_left
    intro i _
    show hexEncode (entBlock ent (pos + TokenSize + TokenSize * i)) =
      hexEncode (entBlock ent (pos + TokenSize * (i + 1)))
    have h2 : pos + TokenSize + TokenSize * i = pos + TokenSize * (i + 1) := by ring
    rw [h2]

/-- C9: every generateTokenID call consumes a fresh TokenSize-byte block
of the entropy stream and hex encoding is injective, so any number of
consecutive issue calls whose drawn random blocks are pairwise distinct,
in particular 1000 of them for the same principal within the same
millisecond, produce pairwise distinct token ID strings. -/
theorem distinct_token_ids_c9
    (ent : Nat → Nat) (pos n : Nat)
    (hdistinct : ∀ i, i < n → ∀ j, j < n → i ≠ j →
      entBlock ent (pos + TokenSize * i) ≠ entBlock ent (pos + TokenSize * j)) :
    (tokenIDs ent pos n).Nodup := by
  rw [tokenIDs_eq_map]
  refine List.Nodup.map_on ?_ (List.nodup_range n)
  intro i hi j hj heq
  by_contra hne2
  apply hdistinct i (List.mem_range.mp hi) j (List.mem_range.mp hj) hne2
  exact hexEncode_inj _ _ (entBlock_lt ent _) (entBlock_lt ent _) heq

theorem distinct_token_ids_c9_witness :
    (∀ i, i < 3 → ∀ j, j < 3 → i ≠ j →
      entBlock (fun k => k) (0 + TokenSize * i) ≠ entBlock (fun k => k) (0 + TokenSize * j)) ∧
    (tokenIDs (fun k => k) 0 3).Nodup :=
  ⟨by decide, distinct_token_ids_c9 (fun k => k) 0 3 (by decide)⟩

theorem createToken_snd (cfg : Config) (emp : EmployeeRow) (tokenType : String)
    (ent : Nat → Nat) (pos : Nat) (now : Int) :
    (createToken cfg emp tokenType ent pos now).2 = pos + TokenSize := rfl

/-- Token ID recorded in a wire token, the empty string on a non-JWT. -/
def tokenIDOf : TokenWire → String
  | .signed c _ => c.tokenID
  | .raw _ => ""

/-- The access token a successful AuthLogin returns: created second, so
its token ID uses the entropy block after the refresh one. -/
def loginAccessTok (cfg : Config) (emp : EmployeeRow) (ent : Nat → Nat)
    (pos : Nat) (now : Int) : TokenWire :=
  (createToken cfg emp "access" ent (pos + TokenSize) now).1

/-- The refresh token a successful AuthLogin returns, created first. -/
def loginRefreshTok (cfg : Config) (emp : EmployeeRow) (ent : Nat → Nat)
    (pos : Nat) (now : Int) : TokenWire :=
  (createToken cfg emp "refresh" ent pos now).1

/-- C10: after a successful login the refresh token is registered only
under the refresh-token namespace, so presenting it as the bearer token
is rejected by getUserFromToken with the revocation error even though it
parses as signature-valid and unexpired; the Claims carry no token-type
discriminator, the namespacing alone separates the two. -/
theorem refresh_token_rejected_as_access_c10
    (cfg : Config) (db : String → DbLookup) (es : List (CacheKey × String × Int))
    (ent : Nat → Nat) (pos : Nat) (now : Int) (req : LoginRequest)
    (hne : ¬(req.email = "" ∨ req.password = ""))
    (id : Nat) (em : String) (role : String)
    (hrow : db req.email = DbLookup.row id em (StoredHash.bcryptOf req.password) role)
    (hblocks : entBlock ent pos ≠ entBlock ent (pos + TokenSize))
    (httl : 0 < cfg.refreshTokenTTL)
    (hpre : lookupEntry es (CacheKey.accessTok
      (loginRefreshTok cfg ⟨id, em, StoredHash.bcryptOf req.password, role⟩ ent pos now)) = none) :
    (AuthLogin cfg db (cleanCache es) ent pos now req).1 =
      ⟨200, "success", RespData.tokens
        (loginAccessTok cfg ⟨id, em, StoredHash.bcryptOf req.password, role⟩ ent pos now)
        (loginRefreshTok cfg ⟨id, em, StoredHash.bcryptOf req.password, role⟩ ent pos now)⟩ ∧
    parseToken cfg.jwtSecret now
      (loginRefreshTok cfg ⟨id, em, StoredHash.bcryptOf req.password, role⟩ ent pos now) =
      Except.ok { id := id, email := em, role := role,
                  tokenID := (generateTokenID ent pos).1,
                  issuedAt := now, expiresAt := now + tokenTTL cfg "refresh" } ∧
    getUserFromToken cfg.jwtSecret now (AuthLogin cfg db (cleanCache es) ent pos now req).2
      (AuthHeader.bearer
        (loginRefreshTok cfg ⟨id, em, StoredHash.bcryptOf req.password, role⟩ ent pos now)) =
      Except.error "token revoked" := by
  have hpw : bcryptCompareHashAndPassword (StoredHash.bcryptOf req.password) req.password =
      Except.ok () := by
    simp [bcryptCompareHashAndPassword]
  have hids : (generateTokenID ent pos).1 ≠ (generateTokenID ent (pos + TokenSize)).1 := by
    intro h
    exact hblocks (hexEncode_inj _ _ (entBlock_lt ent pos) (entBlock_lt ent (pos + TokenSize)) h)
  have htok : loginAccessTok cfg ⟨id, em, StoredHash.bcryptOf req.password, role⟩ ent pos now ≠
      loginRefreshTok cfg ⟨id, em, StoredHash.bcryptOf req.password, role⟩ ent pos now := by
    intro h
    have h3 := congrArg tokenIDOf h
    exact hids (h3.symm)
  have hlogin : AuthLogin cfg db (cleanCache es) ent pos now req =
      (⟨200, "success", RespData.tokens
          (loginAccessTok cfg ⟨id, em, StoredHash.bcryptOf req.password, role⟩ ent pos now)
          (loginRefreshTok cfg ⟨id, em, StoredHash.bcryptOf req.password, role⟩ ent pos now)⟩,
       ⟨(CacheKey.refreshTok
            (loginRefreshTok cfg ⟨id, em, StoredHash.bcryptOf req.password, role⟩ ent pos now),
          toString id, cfg.refreshTokenTTL) ::
        (CacheKey.accessTok
            (loginAccessTok cfg ⟨id, em, StoredHash.bcryptOf req.password, role⟩ ent pos now),
          toString id, cfg.accessTokenTTL) :: es,
        fun _ => none, fun _ => none, fun _ => none⟩) := by
    simp [AuthLogin, CacheState.set, cleanCache, hne, hrow, hpw, loginAccessTok,
      loginRefreshTok, createToken_snd]
  have hkey : CacheKey.accessTok
      (loginAccessTok cfg ⟨id, em, StoredHash.bcryptOf req.password, role⟩ ent pos now) ≠
      CacheKey.accessTok
      (loginRefreshTok cfg ⟨id, em, StoredHash.bcryptOf req.password, role⟩ ent pos now) := by
    intro h
    injection h with h2
    exact htok h2
  have hfresh : now < now + tokenTTL cfg "refresh" := by
    simp only [tokenTTL, if_pos]
    omega
  refine ⟨by rw [hlogin], ?_, ?_⟩
  · simp [loginRefreshTok, createToken, parseToken, hfresh]
  · rw [hlogin]
    simp only [getUserFromToken, CacheState.get, lookupEntry]
    rw [if_neg (by intro h; cases h), if_neg hkey, hpre]

theorem refresh_token_rejected_as_access_c10_witness :
    getUserFromToken cfg0.jwtSecret 0
      (AuthLogin cfg0 c3db (cleanCache []) (fun k => k) 0 0 ⟨"real@x.com", "secret123"⟩).2
      (AuthHeader.bearer
        (loginRefreshTok cfg0 ⟨1, "real@x.com", StoredHash.bcryptOf "secret123", "admin"⟩
          (fun k => k) 0 0)) = Except.error "token revoked" :=
  (refresh_token_rejected_as_access_c10 cfg0 c3db [] (fun k => k) 0 0
    ⟨"real@x.com", "secret123"⟩ (by decide) 1 "real@x.com" "admin" rfl (by decide)
    (by decide) rfl).2.2

end EmployeeService
